import Mathlib

/-!
Shallow embedding of the `athame` weekly-schedule DSL (lexer, parser, trie,
and the weekly time-window model from `athame/ast.py`).

Timestamps are modelled after the subset of `pendulum.DateTime` the code
uses: an absolute instant counted in minutes from a fixed epoch whose local
date at offset 0 is the week's day 0 (a Sunday), together with a timezone
modelled as a fixed offset in minutes.  `day_of_week`, `hour` and `minute`
are read off the local wall clock (instant + offset); comparison between
datetimes compares absolute instants, exactly as pendulum does.
-/

namespace Athame

/-- Python `str.lower()` restricted to the ASCII inputs the program feeds
it. -/
def pyLower (s : String) : String := String.mk (s.data.map Char.toLower)

/-- Python `int()` on a string of decimal digits. -/
def digitsVal (cs : List Char) : Nat := cs.foldl (fun n c => 10 * n + (c.toNat - 48)) 0

/-- pendulum.DateTime: absolute instant in minutes plus a timezone offset
in minutes (DST-less fixed-offset zones). -/
structure DateTime where
  instant : Int
  tz : Int
  deriving DecidableEq, Repr

namespace DateTime

/-- Local wall-clock minutes since the epoch. -/
def localAbs (dt : DateTime) : Int := dt.instant + dt.tz

/-- Local calendar date as a day count from the epoch. -/
def localDate (dt : DateTime) : Int := dt.localAbs / 1440

/-- Minutes past local midnight, in 0..1439. -/
def localMins (dt : DateTime) : Int := dt.localAbs % 1440

/-- pendulum `day_of_week`: 0 = Sunday .. 6 = Saturday. -/
def day_of_week (dt : DateTime) : Int := dt.localDate % 7

/-- pendulum `.hour` (local). -/
def hour (dt : DateTime) : Int := dt.localMins / 60

/-- pendulum `.minute` (local). -/
def minute (dt : DateTime) : Int := dt.localMins % 60

/-- pendulum `.in_tz(tz)`: same instant, different zone. -/
def in_tz (dt : DateTime) (tz : Int) : DateTime := { instant := dt.instant, tz := tz }

/-- pendulum `.at(hour=h, minute=m)`: same local date, given wall-clock time. -/
def at_time (dt : DateTime) (h m : Int) : DateTime :=
  { dt with instant := dt.localDate * 1440 + h * 60 + m - dt.tz }

/-- pendulum `.add(minutes=k)`. -/
def addMinutes (dt : DateTime) (k : Int) : DateTime :=
  { dt with instant := dt.instant + k }

/-- pendulum `.next(dow, keep_time)`: the next local date strictly after the
current one whose day-of-week is `dow`, keeping the wall-clock time when
`keepTime` and resetting it to midnight otherwise. -/
def next (dt : DateTime) (dow : Int) (keepTime : Bool) : DateTime :=
  let d := dt.localDate
  let delta0 := (dow - d % 7) % 7
  let delta := if delta0 = 0 then 7 else delta0
  let newLocal := (d + delta) * 1440 + (if keepTime then dt.localMins else 0)
  { dt with instant := newLocal - dt.tz }

end DateTime

/-- ast.py `Time`: `{hour: 0..23, minute: 0..59}` (the pydantic range
constraints hold of every value the program constructs; they appear as
hypotheses where proofs need them). -/
structure Time where
  hour : Int
  minute : Int
  deriving DecidableEq, Repr

namespace Time

/-- ast.py `Time.from_string`: hour from the first two digits, minute
from the rest. -/
def from_string (s : String) : Time :=
  { hour := Int.ofNat (digitsVal (s.data.take 2))
    minute := Int.ofNat (digitsVal (s.data.drop 2)) }

def start_of_day : Time := { hour := 0, minute := 0 }

def end_of_day : Time := { hour := 23, minute := 59 }

end Time

/-- ast.py `Interval`. -/
structure Interval where
  start : Time
  «end» : Time
  deriving DecidableEq, Repr

/-- ast.py `Directive`. -/
inductive Directive where
  | ALLOW
  | FORBID
  deriving DecidableEq, Repr

/-- ast.py `Agenda`. -/
structure Agenda where
  intervals : List Interval
  directive : Directive
  deriving DecidableEq, Repr

/-- ast.py `WeekdayInterval`: `{day_of_week: 0..6, interval}`. -/
structure WeekdayInterval where
  day_of_week : Int
  interval : Interval
  deriving DecidableEq, Repr

namespace WeekdayInterval

/-- ast.py `WeekdayInterval.__contains__`, translated with Python's
operator precedence (`and` over `or`) and chained comparisons expanded. -/
def contains (w : WeekdayInterval) (dt : DateTime) : Bool :=
  w.day_of_week == dt.day_of_week &&
    ( (w.interval.start.hour < dt.hour && dt.hour < w.interval.«end».hour)
    || (w.interval.start.hour == dt.hour && dt.hour != w.interval.«end».hour
        && w.interval.start.minute ≤ dt.minute)
    || (w.interval.start.hour != dt.hour && dt.hour == w.interval.«end».hour
        && w.interval.«end».minute ≥ dt.minute)
    || (w.interval.start.hour == w.interval.«end».hour && w.interval.«end».hour == dt.hour
        && w.interval.start.minute ≤ dt.minute && dt.minute ≤ w.interval.«end».minute) )

/-- ast.py `WeekdayInterval.next_start_after`. -/
def next_start_after (w : WeekdayInterval) (moment : DateTime) : DateTime :=
  if moment.day_of_week = w.day_of_week then
    let time_shifted_moment := moment.at_time w.interval.start.hour w.interval.start.minute
    if time_shifted_moment.instant ≥ moment.instant then time_shifted_moment
    else time_shifted_moment.next w.day_of_week true
  else
    (moment.next w.day_of_week false).at_time w.interval.start.hour w.interval.start.minute

/-- ast.py `WeekdayInterval.next_end_after`. -/
def next_end_after (w : WeekdayInterval) (moment : DateTime) : DateTime :=
  if moment.day_of_week = w.day_of_week then
    let time_shifted_moment :=
      (moment.at_time w.interval.«end».hour w.interval.«end».minute).addMinutes 1
    if time_shifted_moment.instant > moment.instant then time_shifted_moment
    else time_shifted_moment.next w.day_of_week true
  else
    ((moment.next w.day_of_week false).at_time w.interval.«end».hour w.interval.«end».minute).addMinutes 1

end WeekdayInterval

/-- ast.py `Schedule` (tz modelled as a fixed offset in minutes; the Python
default, the local timezone name, becomes offset 0). -/
structure Schedule where
  allowed : List WeekdayInterval := []
  forbidden : List WeekdayInterval := []
  tz : Int := 0
  deriving DecidableEq, Repr

namespace Schedule

/-- ast.py `Schedule.add_agenda_on_days`: one WeekdayInterval per
`itertools.product(agenda.intervals, days)` pair (interval outer, day
inner), appended to `allowed` or `forbidden` by directive. -/
def add_agenda_on_days (s : Schedule) (agenda : Agenda) (days : List Int) : Schedule :=
  let weekday_intervals :=
    agenda.intervals.flatMap fun interval =>
      days.map fun day_of_week => WeekdayInterval.mk day_of_week interval
  match agenda.directive with
  | Directive.ALLOW => { s with allowed := s.allowed ++ weekday_intervals }
  | Directive.FORBID => { s with forbidden := s.forbidden ++ weekday_intervals }

/-- ast.py `Schedule.add_agendas_on_days`. -/
def add_agendas_on_days (s : Schedule) (agendas : List Agenda) (days : List Int) : Schedule :=
  agendas.foldl (fun acc agenda => acc.add_agenda_on_days agenda days) s

/-- ast.py `Schedule.is_allowed_at`. -/
def is_allowed_at (s : Schedule) (moment : DateTime) : Bool :=
  let m := moment.in_tz s.tz
  s.allowed.any (fun w => w.contains m) && ! s.forbidden.any (fun w => w.contains m)

/-- Python's `sorted(...)` followed by taking the first element: the first
element of the list attaining the minimal instant. -/
def earliest : List DateTime → Option DateTime
  | [] => none
  | x :: xs => some (xs.foldl (fun b y => if y.instant < b.instant then y else b) x)

/-- ast.py `Schedule.next_moment_allowed_after`.  The error branch is the
`ScheduleError` raised (via the `athame.exceptions` helper, whose
catch-ValueError-and-rethrow behaviour is modelled from the spec) when the
filtered candidate list is empty; it carries the message from ast.py. -/
def next_moment_allowed_after (s : Schedule) (moment : DateTime) :
    Except String DateTime :=
  let m := moment.in_tz s.tz
  let allowed_starts := s.allowed.map (fun w => w.next_start_after m)
  let forbidden_ends := s.forbidden.map (fun w => w.next_end_after m)
  let candidates := m :: (allowed_starts ++ forbidden_ends)
  match earliest (candidates.filter (fun c => s.is_allowed_at c)) with
  | none => Except.error "no allowed intervals in the schedule"
  | some best => Except.ok best

/-- The candidate set of `next_moment_allowed_after`: the (timezone
converted) moment itself, the next start of every allowed interval, and the
next end of every forbidden interval. -/
def candidates (s : Schedule) (moment : DateTime) : List DateTime :=
  let m := moment.in_tz s.tz
  m :: (s.allowed.map (fun w => w.next_start_after m)
        ++ s.forbidden.map (fun w => w.next_end_after m))

end Schedule

/-- A moment in offset-zero time on epoch-relative day `d` (day-of-week
`d % 7`, day 0 being a Sunday) at wall-clock `h:mi`.  Used for the concrete
test moments of the spec. -/
def mkMoment (d h mi : Int) : DateTime := { instant := d * 1440 + h * 60 + mi, tz := 0 }

/-- The spec's example interval: day 0 (Sunday), 02:15–14:45. -/
def exampleWdi : WeekdayInterval :=
  { day_of_week := 0
    interval := { start := { hour := 2, minute := 15 }, «end» := { hour := 14, minute := 45 } } }

/-- trie.py `Trie`: a node is a mapping from single (lowercased)
characters to child nodes — an insertion-ordered association list, like a
Python dict — plus the `is_terminal` flag.  The Python root plain `dict()`
without the flag behaves as flag-false, which is how `__contains__`'s
`current.get("is_terminal")` (None, falsy) is modelled. -/
inductive Trie where
  | node (is_terminal : Bool) (children : List (Char × Trie))

namespace Trie

/-- Python `string.lower()` restricted to the ASCII inputs the program
feeds it. -/
def lowerChars (s : String) : List Char := s.data.map Char.toLower

/-- The terminal flag of a node. -/
def is_terminal_flag : Trie → Bool
  | node b _ => b

/-- The child keys of a node, in insertion order. -/
def childKeys : Trie → List Char
  | node _ children => children.map (fun p => p.1)

/-- The child of a node along one character, if any (first matching key,
as in a dict). -/
def find? : Trie → Char → Option Trie
  | node _ children, c => children.lookup c

/-- Following a path of characters from a node. -/
def walk : Trie → List Char → Option Trie
  | t, [] => some t
  | node _ children, c :: cs =>
    match children.lookup c with
    | none => none
    | some t' => walk t' cs

/-- Replace the value at the first occurrence of a key in an association
list (a Python dict update of an existing key keeps its position). -/
def updateChild : List (Char × Trie) → Char → Trie → List (Char × Trie)
  | [], _, _ => []
  | (k, v) :: rest, c, t => if k == c then (k, t) :: rest else (k, v) :: updateChild rest c t

/-- trie.py `Trie.add` on an already-lowercased character list:
`setdefault` walks existing children and appends missing ones (flag
false), and the final node's flag is set. -/
def addChars : Trie → List Char → Trie
  | node _ children, [] => node true children
  | node b children, c :: cs =>
    match children.lookup c with
    | some t' => node b (updateChild children c (addChars t' cs))
    | none => node b (children ++ [(c, addChars (node false []) cs)])

/-- trie.py `Trie.add`. -/
def add (t : Trie) (s : String) : Trie := addChars t (lowerChars s)

/-- trie.py `Trie.from_strings` starting from the empty root. -/
def from_strings (strings : List String) : Trie :=
  strings.foldl add (node false [])

/-- trie.py `Trie.__contains__`. -/
def contains (t : Trie) (s : String) : Bool :=
  match walk t (lowerChars s) with
  | none => false
  | some n => n.is_terminal_flag

/-- trie.py `Trie.contains_prefix` (named for its behaviour here): true
iff the path for the string exists, terminal or not. -/
def hasPath (t : Trie) (s : String) : Bool :=
  (walk t (lowerChars s)).isSome

/-- trie.py `Trie.chars_after`: Python's `sorted` over the child keys of
the reached node (insertion sort gives the same ascending order). -/
def chars_after (t : Trie) (s : String) : List Char :=
  match walk t (lowerChars s) with
  | none => []
  | some n => n.childKeys.insertionSort (fun a b => a ≤ b)

/-- trie.py `Trie.max_match_for` on the lowercased characters: the
longest traversable prefix, built left to right. -/
def maxMatchChars : Trie → List Char → List Char
  | _, [] => []
  | node _ children, c :: cs =>
    match children.lookup c with
    | none => []
    | some t' => c :: maxMatchChars t' cs

/-- trie.py `Trie.max_match_for`. -/
def max_match_for (t : Trie) (s : String) : String :=
  String.mk (maxMatchChars t (lowerChars s))

end Trie

/-- lexer.py `TokenType`. -/
inductive TokenType where
  | END_INPUT
  | ALLOW
  | FORBID
  | DAY_OF_WEEK
  | TIME
  | DASH
  deriving DecidableEq, Repr

/-- lexer.py `Position`. -/
structure Position where
  column : Int
  lineno : Int
  deriving DecidableEq, Repr

/-- lexer.py `Token`. -/
structure Token where
  type : TokenType
  lexeme : String
  position : Position
  deriving DecidableEq, Repr

/-- A lexical error: the position the lexer reports (with any offset
already applied) and, when present, the expected-next-characters set of
the diagnostic. -/
structure LexError where
  lineno : Int
  column : Int
  expected : Option (List Char)
  deriving DecidableEq, Repr

/-- The lexer's mutable state: the unread lines of the source (the
`readline` queue), the current line buffer, the column and line counters,
and the current character (`none` at end of input). -/
structure LexState where
  lines : List (List Char)
  line : List Char
  column : Int
  lineno : Int
  char : Option Char
  deriving DecidableEq, Repr

namespace Lexer

def HOUR_STARTS : List Char := ['0', '1', '2']

def HOUR_ENDS : List Char := ['0', '1', '2', '3', '4', '5', '6', '7', '8', '9']

def HOUR_ENDS_2X : List Char := ['0', '1', '2', '3']

def MINUTE_STARTS : List Char := ['0', '1', '2', '3', '4', '5']

def MINUTE_ENDS : List Char := ['0', '1', '2', '3', '4', '5', '6', '7', '8', '9']

def DAYS_OF_WEEK : List String :=
  ["sunday", "sun", "monday", "mon", "tuesday", "tue", "wednesday", "wed",
   "thursday", "thu", "friday", "fri", "saturday", "sat"]

def KEYWORDS : Trie := Trie.from_strings ("allow" :: "forbid" :: DAYS_OF_WEEK)

/-- The default whitespace set (space, tab, form feed). -/
def whitespaceChars : List Char := [' ', '\t', '\x0c']

/-- lexer.py `Lexer.is_ascii_identifier_start`: membership in
`string.ascii_letters`. -/
def is_ascii_identifier_start (c : Char) : Bool := c.isAlpha

def is_hour_start (c : Char) : Bool := c ∈ HOUR_STARTS

/-- lexer.py `Lexer.is_hour_end` (the current character may be the
end-of-line sentinel or missing, which never match). -/
def is_hour_end (c : Option Char) (hourFirst : Char) : Bool :=
  match c with
  | none => false
  | some c => if hourFirst = '2' then c ∈ HOUR_ENDS_2X else c ∈ HOUR_ENDS

def is_minute_start (c : Option Char) : Bool :=
  match c with
  | none => false
  | some c => c ∈ MINUTE_STARTS

def is_minute_end (c : Option Char) : Bool :=
  match c with
  | none => false
  | some c => c ∈ MINUTE_ENDS

/-- lexer.py `Lexer.next_char`: advance within the current line, yield the
virtual end-of-line character past its last index, or report end of input
once the line buffer is empty. -/
def next_char (st : LexState) : LexState :=
  if st.line = [] then { st with column := 0, char := none }
  else if st.column + 1 ≥ (st.line.length : Int) then
    { st with char := some '\n', column := st.column + 1 }
  else
    { st with column := st.column + 1,
              char := some (st.line.getD (st.column + 1).toNat ' ') }

/-- lexer.py `Lexer.next_line`: pull the next line from the source (empty
buffer at end of file), reset the column, bump the line counter. -/
def next_line (st : LexState) : LexState :=
  match st.lines with
  | [] => next_char { st with lines := [], line := [], column := -1, lineno := st.lineno + 1 }
  | l :: rest =>
    next_char { st with lines := rest, line := l, column := -1, lineno := st.lineno + 1 }

/-- `io.StringIO.readline` splitting: each line keeps its trailing
newline; a last newline-less chunk is its own line. -/
def splitLinesAux (acc : List Char) : List Char → List (List Char)
  | [] => if acc.isEmpty then [] else [acc.reverse]
  | c :: cs =>
    if c = '\n' then (acc.reverse ++ ['\n']) :: splitLinesAux [] cs
    else splitLinesAux (c :: acc) cs

def splitLines (cs : List Char) : List (List Char) := splitLinesAux [] cs

/-- lexer.py `Lexer.from_string` followed by `__init__`: load the first
line and read the first character. -/
def from_string (s : String) : LexState :=
  match splitLines s.data with
  | [] => next_char { lines := [], line := [], column := -1, lineno := 0, char := none }
  | l :: rest => next_char { lines := rest, line := l, column := -1, lineno := 0, char := none }

/-- Fuel that bounds every loop of the lexer on a given state: more than
the number of characters and lines left. -/
def stateFuel (st : LexState) : Nat :=
  st.line.length + (st.lines.map List.length).sum + st.lines.length + 2

/-- lexer.py `Lexer.skip_whitespace` (fuelled; the fuel passed by callers
always suffices, each step consuming a character or a line). -/
def skip_whitespace : Nat → LexState → LexState
  | 0, st => st
  | fuel + 1, st =>
    match st.char with
    | none => st
    | some c =>
      if c ∈ whitespaceChars then skip_whitespace fuel (next_char st)
      else if c = '\n' then skip_whitespace fuel (next_line st)
      else st

/-- The letter-consuming loop of `Lexer.extract_ascii_identifier`. -/
def skip_letters : Nat → LexState → LexState
  | 0, st => st
  | fuel + 1, st =>
    match st.char with
    | none => st
    | some c =>
      if is_ascii_identifier_start c then skip_letters fuel (next_char st) else st

/-- lexer.py `Lexer.extract_ascii_identifier`: remember the start column,
run past the letters, slice the current line. -/
def extract_ascii_identifier (fuel : Nat) (st : LexState) : String × LexState :=
  let start := st.column
  let st' := skip_letters fuel st
  (String.mk ((st'.line.drop start.toNat).take (st'.column - start).toNat), st')

/-- lexer.py `Lexer.hour_partial` (two hour digits; the first was already
seen by the caller).  The second digit must satisfy `is_hour_end` for the
first, otherwise the error lists the acceptable digits. -/
def hour_part (c0 : Char) (st : LexState) : Except LexError (List Char × LexState) :=
  let st1 := next_char st
  match st1.char with
  | some c1 =>
    if is_hour_end (some c1) c0 then Except.ok ([c0, c1], next_char st1)
    else Except.error { lineno := st1.lineno, column := st1.column,
                        expected := some (if c0 = '2' then HOUR_ENDS_2X else HOUR_ENDS) }
  | none =>
    Except.error { lineno := st1.lineno, column := st1.column,
                   expected := some (if c0 = '2' then HOUR_ENDS_2X else HOUR_ENDS) }

/-- lexer.py `Lexer.minute_partial` (two minute digits). -/
def minute_part (st : LexState) : Except LexError (List Char × LexState) :=
  match st.char with
  | some c2 =>
    if is_minute_start (some c2) then
      let st1 := next_char st
      match st1.char with
      | some c3 =>
        if is_minute_end (some c3) then Except.ok ([c2, c3], next_char st1)
        else Except.error { lineno := st1.lineno, column := st1.column,
                            expected := some MINUTE_ENDS }
      | none =>
        Except.error { lineno := st1.lineno, column := st1.column,
                       expected := some MINUTE_ENDS }
    else
      Except.error { lineno := st.lineno, column := st.column, expected := some MINUTE_STARTS }
  | none =>
    Except.error { lineno := st.lineno, column := st.column, expected := some MINUTE_STARTS }

/-- lexer.py `Lexer.time_token`: hour digits then minute digits, joined
into the TIME lexeme. -/
def time_token (c0 : Char) (pos : Position) (st : LexState) :
    Except LexError (Token × LexState) := do
  let (hourDigits, st1) ← hour_part c0 st
  let (minuteDigits, st2) ← minute_part st1
  Except.ok ({ type := TokenType.TIME, lexeme := String.mk (hourDigits ++ minuteDigits),
               position := pos }, st2)

/-- lexer.py `Lexer.allow_or_forbid_or_day_of_week_token`: extract the
identifier, classify it through the keyword trie, or fail with the trie's
suggestions (`chars_after` for a proper prefix, `max_match_for`'s
divergence offset otherwise). -/
def keyword_token (fuel : Nat) (pos : Position) (st : LexState) :
    Except LexError (Token × LexState) :=
  let (lexeme, st1) := extract_ascii_identifier fuel st
  if Trie.contains KEYWORDS lexeme then
    let low := pyLower lexeme
    if low = "allow" then
      Except.ok ({ type := TokenType.ALLOW, lexeme := lexeme, position := pos }, st1)
    else if low = "forbid" then
      Except.ok ({ type := TokenType.FORBID, lexeme := lexeme, position := pos }, st1)
    else if low ∈ DAYS_OF_WEEK then
      Except.ok ({ type := TokenType.DAY_OF_WEEK, lexeme := lexeme, position := pos }, st1)
    else
      Except.error { lineno := st1.lineno, column := st1.column, expected := none }
  else if Trie.hasPath KEYWORDS lexeme then
    Except.error { lineno := st1.lineno, column := st1.column,
                   expected := some (Trie.chars_after KEYWORDS lexeme) }
  else
    Except.error { lineno := st1.lineno,
                   column := st1.column +
                     ((Trie.max_match_for KEYWORDS lexeme).length : Int) - (lexeme.length : Int),
                   expected := none }

/-- lexer.py `Lexer.next_token`: skip whitespace, mark the position, and
dispatch on the first character. -/
def next_token (st : LexState) : Except LexError (Token × LexState) :=
  let fuel := stateFuel st
  let st := skip_whitespace fuel st
  let pos : Position := { column := st.column, lineno := st.lineno }
  match st.char with
  | none =>
    Except.ok ({ type := TokenType.END_INPUT, lexeme := "", position := pos }, next_char st)
  | some c =>
    if is_ascii_identifier_start c then keyword_token fuel pos st
    else if is_hour_start c then time_token c pos st
    else if c = '-' then
      Except.ok ({ type := TokenType.DASH, lexeme := "-", position := pos }, next_char st)
    else Except.error { lineno := st.lineno, column := st.column, expected := none }

/-- Run `next_token` to the END_INPUT token (inclusive), producing the
token stream the parser consumes.  The fuel bounds the token count; it
always suffices because every token before END_INPUT consumes at least one
character. -/
def tokenizeAux : Nat → LexState → Except LexError (List Token)
  | 0, _ => Except.ok []
  | fuel + 1, st => do
    let (tok, st') ← next_token st
    if tok.type = TokenType.END_INPUT then Except.ok [tok]
    else do
      let rest ← tokenizeAux fuel st'
      Except.ok (tok :: rest)

def tokenize (st : LexState) : Except LexError (List Token) :=
  tokenizeAux (stateFuel st) st

end Lexer

/-- A syntax error: the expected token kinds and the kind found (parser.py
`Parser.unexpected_token`; the position rendering is the lexer's). -/
structure ParseError where
  expected : List TokenType
  got : TokenType
  deriving DecidableEq, Repr

namespace Parser

/-- The parser's view of the token stream: the current token is the head;
past the END_INPUT token the lexer would keep yielding END_INPUT tokens. -/
def cur (ts : List Token) : Token :=
  ts.headD { type := TokenType.END_INPUT, lexeme := "", position := { column := 0, lineno := 0 } }

/-- Advancing the stream (`lexer.next_token()` from the parser). -/
def adv (ts : List Token) : List Token := ts.tail

/-- parser.py `dow_int_map` inside `parse_days`. -/
def dow_int_map (s : String) : Option Int :=
  if s = "sunday" ∨ s = "sun" then some 0
  else if s = "monday" ∨ s = "mon" then some 1
  else if s = "tuesday" ∨ s = "tue" then some 2
  else if s = "wednesday" ∨ s = "wed" then some 3
  else if s = "thursday" ∨ s = "thu" then some 4
  else if s = "friday" ∨ s = "fri" then some 5
  else if s = "saturday" ∨ s = "sat" then some 6
  else none

/-- The day-range while-loop of `parse_days`: append successors modulo 7
until the last appended day equals the range's last day.  Seven units of
fuel cover every reachable pair of day numbers. -/
def expandDaysAux : Nat → Int → Int → List Int
  | 0, _, _ => []
  | fuel + 1, next_day, last_day =>
    if next_day = last_day then [next_day]
    else next_day :: expandDaysAux fuel ((next_day + 1) % 7) last_day

/-- parser.py `Parser.parse_days` (every DAY_OF_WEEK lexeme lowercases
into `dow_int_map`'s keys, so the dict lookup never misses; `getD 0`
models that). -/
def parse_days (ts : List Token) : Except ParseError (List Int × List Token) :=
  if (cur ts).type ≠ TokenType.DAY_OF_WEEK then
    Except.error { expected := [TokenType.DAY_OF_WEEK], got := (cur ts).type }
  else
    let first := (dow_int_map (pyLower (cur ts).lexeme)).getD 0
    let ts1 := adv ts
    if (cur ts1).type = TokenType.DASH then
      let ts2 := adv ts1
      if (cur ts2).type ≠ TokenType.DAY_OF_WEEK then
        Except.error { expected := [TokenType.DAY_OF_WEEK], got := (cur ts2).type }
      else
        let last_day := (dow_int_map (pyLower (cur ts2).lexeme)).getD 0
        let ts3 := adv ts2
        if first = last_day then Except.ok ([first], ts3)
        else Except.ok (first :: expandDaysAux 7 ((first + 1) % 7) last_day, ts3)
    else
      Except.ok ([first], ts1)

/-- parser.py `Parser.parse_interval`: `TIME '-' TIME`, `'-' TIME` with
start defaulting to start of day, or a bare `TIME` with end defaulting to
end of day. -/
def parse_interval (ts : List Token) : Except ParseError (Interval × List Token) :=
  if (cur ts).type = TokenType.TIME then
    let start := Time.from_string (cur ts).lexeme
    let ts1 := adv ts
    if (cur ts1).type = TokenType.DASH then
      let ts2 := adv ts1
      if (cur ts2).type ≠ TokenType.TIME then
        Except.error { expected := [TokenType.TIME], got := (cur ts2).type }
      else
        Except.ok ({ start := start, «end» := Time.from_string (cur ts2).lexeme }, adv ts2)
    else
      Except.ok ({ start := start, «end» := Time.end_of_day }, ts1)
  else if (cur ts).type = TokenType.DASH then
    let ts1 := adv ts
    if (cur ts1).type ≠ TokenType.TIME then
      Except.error { expected := [TokenType.TIME], got := (cur ts1).type }
    else
      Except.ok ({ start := Time.start_of_day, «end» := Time.from_string (cur ts1).lexeme },
                 adv ts1)
  else
    Except.error { expected := [TokenType.TIME, TokenType.DASH], got := (cur ts).type }

/-- The while-loop of `Parser.parse_intervals` (fuelled by the stream
length at the call site; each iteration consumes at least one token). -/
def parse_intervals_aux : Nat → List Token → Except ParseError (List Interval × List Token)
  | 0, ts => Except.ok ([], ts)
  | fuel + 1, ts =>
    if (cur ts).type = TokenType.TIME ∨ (cur ts).type = TokenType.DASH then do
      let (iv, ts') ← parse_interval ts
      let (rest, ts'') ← parse_intervals_aux fuel ts'
      Except.ok (iv :: rest, ts'')
    else Except.ok ([], ts)

/-- parser.py `Parser.parse_intervals`. -/
def parse_intervals (fuel : Nat) (ts : List Token) :
    Except ParseError (List Interval × List Token) := do
  let (iv, ts') ← parse_interval ts
  let (rest, ts'') ← parse_intervals_aux fuel ts'
  Except.ok (iv :: rest, ts'')

/-- parser.py `Parser.parse_agenda`. -/
def parse_agenda (fuel : Nat) (ts : List Token) : Except ParseError (Agenda × List Token) :=
  if (cur ts).type = TokenType.ALLOW then do
    let (ivs, ts') ← parse_intervals fuel (adv ts)
    Except.ok ({ intervals := ivs, directive := Directive.ALLOW }, ts')
  else if (cur ts).type = TokenType.FORBID then do
    let (ivs, ts') ← parse_intervals fuel (adv ts)
    Except.ok ({ intervals := ivs, directive := Directive.FORBID }, ts')
  else
    Except.error { expected := [TokenType.ALLOW, TokenType.FORBID], got := (cur ts).type }

/-- The while-loop of `Parser.parse_agendas`. -/
def parse_agendas_aux : Nat → List Token → Except ParseError (List Agenda × List Token)
  | 0, ts => Except.ok ([], ts)
  | fuel + 1, ts =>
    if (cur ts).type = TokenType.ALLOW ∨ (cur ts).type = TokenType.FORBID then do
      let (a, ts') ← parse_agenda (fuel + 1) ts
      let (rest, ts'') ← parse_agendas_aux fuel ts'
      Except.ok (a :: rest, ts'')
    else Except.ok ([], ts)

/-- parser.py `Parser.parse_agendas`. -/
def parse_agendas (fuel : Nat) (ts : List Token) :
    Except ParseError (List Agenda × List Token) := do
  let (a, ts') ← parse_agenda fuel ts
  let (rest, ts'') ← parse_agendas_aux fuel ts'
  Except.ok (a :: rest, ts'')

/-- The while-loop of `Parser.parse_schedule`, folding each
`(days, agendas)` group into the accumulating schedule. -/
def parse_schedule_aux : Nat → Schedule → List Token → Except ParseError (Schedule × List Token)
  | 0, s, ts => Except.ok (s, ts)
  | fuel + 1, s, ts =>
    if (cur ts).type = TokenType.DAY_OF_WEEK then do
      let (days, ts1) ← parse_days ts
      let (agendas, ts2) ← parse_agendas (fuel + 1) ts1
      parse_schedule_aux fuel (s.add_agendas_on_days agendas days) ts2
    else Except.ok (s, ts)

/-- parser.py `Parser.parse_schedule` starting from an empty Schedule. -/
def parse_schedule (fuel : Nat) (ts : List Token) :
    Except ParseError (Schedule × List Token) := do
  let (days, ts1) ← parse_days ts
  let (agendas, ts2) ← parse_agendas fuel ts1
  parse_schedule_aux fuel (({} : Schedule).add_agendas_on_days agendas days) ts2

end Parser

/-- The lexing or parsing failure of a whole run of the pipeline. -/
inductive DslError where
  | lex (e : LexError)
  | syn (e : ParseError)
  deriving DecidableEq, Repr

/-- The full pipeline on a source text: lex everything, then
`Parser.parse` (which returns the Schedule of `parse_schedule`). -/
def parse_string (s : String) : Except DslError Schedule :=
  match Lexer.tokenize (Lexer.from_string s) with
  | Except.error e => Except.error (DslError.lex e)
  | Except.ok toks =>
    match Parser.parse_schedule (toks.length + 1) toks with
    | Except.error e => Except.error (DslError.syn e)
    | Except.ok (sched, _) => Except.ok sched

/-- Lex a source text and run only `parse_days` on the resulting stream,
returning the day list (`none` on either failure). -/
def parse_days_of_string (s : String) : Option (List Int) :=
  match Lexer.tokenize (Lexer.from_string s) with
  | Except.error _ => none
  | Except.ok toks =>
    match Parser.parse_days toks with
    | Except.error _ => none
    | Except.ok (days, _) => some days

/-- Day 0 (Sunday) over the whole day. -/
def sundayAllDay : WeekdayInterval :=
  { day_of_week := 0
    interval := { start := Time.start_of_day, «end» := Time.end_of_day } }

/-- Day 0 (Sunday) from midnight until 01:00. -/
def sundayUntilOne : WeekdayInterval :=
  { day_of_week := 0
    interval := { start := Time.start_of_day, «end» := { hour := 1, minute := 0 } } }

/-- A schedule allowing all of Sunday and nothing else. -/
def sundaySchedule : Schedule := { allowed := [sundayAllDay] }

/-- The claim's reading of an inclusive wrapped day range: start at the
first day and append successors modulo 7 until the last day lands. -/
def dayRangeSpec (first last : Int) : List Int :=
  first :: (List.range (((last - first) % 7).toNat)).map (fun i => (first + 1 + i) % 7)

/-! ### Theorems -/

/-- Helper: `List.any` only depends on the multiset of elements. -/
theorem any_perm {α : Type} (p : α → Bool) {l l' : List α} (h : l.Perm l') :
    l.any p = l'.any p := by
  rw [Bool.eq_iff_iff]
  simp only [List.any_eq_true]
  constructor <;> rintro ⟨x, hx, hp⟩
  · exact ⟨x, h.mem_iff.mp hx, hp⟩
  · exact ⟨x, h.mem_iff.mpr hx, hp⟩

/-- C2: `is_allowed_at` converts the moment to the schedule's timezone and
returns true iff the converted moment lies in some allowed WeekdayInterval
and in no forbidden one; forbidden overrides allowed regardless of the
insertion order of either list (the answer is invariant under permuting
them). -/
theorem is_allowed_at_spec :
    (∀ (s : Schedule) (moment : DateTime),
      s.is_allowed_at moment = true ↔
        ((∃ w ∈ s.allowed, w.contains (moment.in_tz s.tz) = true) ∧
         ∀ w ∈ s.forbidden, w.contains (moment.in_tz s.tz) = false)) ∧
    (∀ (s₁ s₂ : Schedule), s₁.allowed.Perm s₂.allowed → s₁.forbidden.Perm s₂.forbidden →
      s₁.tz = s₂.tz → ∀ moment, s₁.is_allowed_at moment = s₂.is_allowed_at moment) := by
  constructor
  · intro s moment
    simp [Schedule.is_allowed_at, List.any_eq_true, List.any_eq_false, Bool.not_eq_true']
  · intro s₁ s₂ hA hF htz moment
    simp only [Schedule.is_allowed_at, htz]
    rw [any_perm _ hA, any_perm _ hF]

/-- Witness for C2's order-independence at two schedules whose allowed
lists are permutations of each other. -/
theorem is_allowed_at_spec_witness :
    Schedule.is_allowed_at ⟨[sundayAllDay, exampleWdi], [exampleWdi], 0⟩ (mkMoment 0 8 30) =
      Schedule.is_allowed_at ⟨[exampleWdi, sundayAllDay], [exampleWdi], 0⟩ (mkMoment 0 8 30) :=
  is_allowed_at_spec.2 ⟨[sundayAllDay, exampleWdi], [exampleWdi], 0⟩
    ⟨[exampleWdi, sundayAllDay], [exampleWdi], 0⟩ (by decide) (by decide) rfl (mkMoment 0 8 30)

/-- C3: the `WeekdayInterval` containment test is the four-branch boundary
logic of the claim, and the example interval day 0 @ 02:15–14:45 contains
day0@02:15, day0@14:45 and day0@08:30 while excluding day0@00:00,
day0@02:14, day0@14:46 and day1@08:30. -/
theorem weekday_interval_contains_spec :
    (∀ (w : WeekdayInterval) (dt : DateTime),
      w.contains dt = true ↔
        (w.day_of_week = dt.day_of_week ∧
          ((w.interval.start.hour < dt.hour ∧ dt.hour < w.interval.«end».hour)
          ∨ (w.interval.start.hour = dt.hour ∧ dt.hour ≠ w.interval.«end».hour
             ∧ w.interval.start.minute ≤ dt.minute)
          ∨ (w.interval.start.hour ≠ dt.hour ∧ dt.hour = w.interval.«end».hour
             ∧ dt.minute ≤ w.interval.«end».minute)
          ∨ (w.interval.start.hour = w.interval.«end».hour ∧ w.interval.«end».hour = dt.hour
             ∧ w.interval.start.minute ≤ dt.minute ∧ dt.minute ≤ w.interval.«end».minute)))) ∧
    exampleWdi.contains (mkMoment 0 2 15) = true ∧
    exampleWdi.contains (mkMoment 0 14 45) = true ∧
    exampleWdi.contains (mkMoment 0 8 30) = true ∧
    exampleWdi.contains (mkMoment 0 0 0) = false ∧
    exampleWdi.contains (mkMoment 0 2 14) = false ∧
    exampleWdi.contains (mkMoment 0 14 46) = false ∧
    exampleWdi.contains (mkMoment 1 8 30) = false := by
  refine ⟨?_, by decide, by decide, by decide, by decide, by decide, by decide, by decide⟩
  intro w dt
  simp only [WeekdayInterval.contains, Bool.and_eq_true, Bool.or_eq_true, beq_iff_eq,
    bne_iff_ne, decide_eq_true_eq, ne_eq, ge_iff_le]
  tauto

/-- Helper: a schedule whose `is_allowed_at` is constantly false has no
next allowed moment. -/
theorem next_error_of_never_allowed (s : Schedule)
    (h : ∀ c, s.is_allowed_at c = false) (moment : DateTime) :
    s.next_moment_allowed_after moment =
      Except.error "no allowed intervals in the schedule" := by
  simp [Schedule.next_moment_allowed_after, h, Schedule.earliest]

/-- C9: a schedule with an empty allowed list permits no moment at all,
whatever its forbidden list, and its next-allowed-moment search always
fails with the schedule error. -/
theorem empty_allowed_schedule_spec :
    ∀ (s : Schedule), s.allowed = [] → ∀ (moment : DateTime),
      s.is_allowed_at moment = false ∧
      s.next_moment_allowed_after moment =
        Except.error "no allowed intervals in the schedule" := by
  intro s h moment
  have hfalse : ∀ c, s.is_allowed_at c = false := by
    intro c; simp [Schedule.is_allowed_at, h]
  exact ⟨hfalse moment, next_error_of_never_allowed s hfalse moment⟩

/-- Witness for C9 at a forbid-only schedule and a concrete moment. -/
theorem empty_allowed_schedule_spec_witness :
    Schedule.is_allowed_at { forbidden := [exampleWdi] } (mkMoment 0 8 30) = false ∧
    Schedule.next_moment_allowed_after { forbidden := [exampleWdi] } (mkMoment 0 8 30) =
      Except.error "no allowed intervals in the schedule" :=
  empty_allowed_schedule_spec { forbidden := [exampleWdi] } rfl (mkMoment 0 8 30)

/-- Helper: the fold inside `earliest` returns an element of `x :: xs`. -/
theorem foldl_min_mem (xs : List DateTime) :
    ∀ x : DateTime,
      xs.foldl (fun b y => if y.instant < b.instant then y else b) x ∈ x :: xs := by
  induction xs with
  | nil => intro x; simp
  | cons y ys ih =>
    intro x
    have h := ih (if y.instant < x.instant then y else x)
    simp only [List.foldl_cons]
    rcases List.mem_cons.mp h with h' | h'
    · rw [h']
      by_cases hlt : y.instant < x.instant <;> simp [hlt]
    · simp [h']

/-- Helper: the fold inside `earliest` is a lower bound of `x :: xs`. -/
theorem foldl_min_le (xs : List DateTime) :
    ∀ x : DateTime, ∀ c ∈ x :: xs,
      (xs.foldl (fun b y => if y.instant < b.instant then y else b) x).instant ≤ c.instant := by
  induction xs with
  | nil => intro x c hc; simp at hc; simp [hc]
  | cons y ys ih =>
    intro x c hc
    simp only [List.foldl_cons]
    have hmin : (if y.instant < x.instant then y else x).instant ≤ x.instant ∧
        (if y.instant < x.instant then y else x).instant ≤ y.instant := by
      by_cases hlt : y.instant < x.instant <;> simp [hlt] <;> omega
    rcases List.mem_cons.mp hc with h' | h'
    · subst h'
      exact le_trans (ih _ _ (List.mem_cons_self _ _)) hmin.1
    · rcases List.mem_cons.mp h' with h'' | h''
      · subst h''
        exact le_trans (ih _ _ (List.mem_cons_self _ _)) hmin.2
      · exact ih _ _ (List.mem_cons.mpr (Or.inr h''))

/-- Helper: `earliest` returns a member of the list. -/
theorem earliest_mem {l : List DateTime} {b : DateTime}
    (h : Schedule.earliest l = some b) : b ∈ l := by
  cases l with
  | nil => simp [Schedule.earliest] at h
  | cons x xs =>
    simp only [Schedule.earliest, Option.some.injEq] at h
    rw [← h]
    exact foldl_min_mem xs x

/-- Helper: `earliest` returns a lower bound of the list. -/
theorem earliest_le {l : List DateTime} {b : DateTime}
    (h : Schedule.earliest l = some b) : ∀ c ∈ l, b.instant ≤ c.instant := by
  cases l with
  | nil => simp [Schedule.earliest] at h
  | cons x xs =>
    simp only [Schedule.earliest, Option.some.injEq] at h
    rw [← h]
    exact foldl_min_le xs x

/-- C1: `next_moment_allowed_after` converts the moment to the schedule's
timezone, forms the candidate set (the moment, each allowed interval's next
start, each forbidden interval's next end), filters it by `is_allowed_at`
and returns the earliest survivor; it returns the schedule error with
message "no allowed intervals in the schedule" exactly when no candidate
survives — in particular on every schedule with empty allowed and
forbidden lists, and on every schedule holding one allowed WeekdayInterval
together with an identical forbidden one. -/
theorem next_moment_allowed_after_spec :
    (∀ (s : Schedule) (moment b : DateTime),
      s.next_moment_allowed_after moment = Except.ok b →
        b ∈ s.candidates moment ∧ s.is_allowed_at b = true ∧
        ∀ c ∈ s.candidates moment, s.is_allowed_at c = true → b.instant ≤ c.instant) ∧
    (∀ (s : Schedule) (moment : DateTime),
      s.next_moment_allowed_after moment =
          Except.error "no allowed intervals in the schedule" ↔
        ∀ c ∈ s.candidates moment, s.is_allowed_at c = false) ∧
    (∀ (moment : DateTime) (tz : Int),
      Schedule.next_moment_allowed_after { allowed := [], forbidden := [], tz := tz } moment =
        Except.error "no allowed intervals in the schedule") ∧
    (∀ (w : WeekdayInterval) (moment : DateTime) (tz : Int),
      Schedule.next_moment_allowed_after { allowed := [w], forbidden := [w], tz := tz } moment =
        Except.error "no allowed intervals in the schedule") := by
  have hunfold : ∀ (s : Schedule) (moment : DateTime),
      s.next_moment_allowed_after moment =
        match Schedule.earliest ((s.candidates moment).filter (fun c => s.is_allowed_at c)) with
        | none => Except.error "no allowed intervals in the schedule"
        | some best => Except.ok best := by
    intro s moment; rfl
  refine ⟨?_, ?_, ?_, ?_⟩
  · intro s moment b h
    rw [hunfold] at h
    cases heq : Schedule.earliest ((s.candidates moment).filter (fun c => s.is_allowed_at c)) with
    | none => rw [heq] at h; exact absurd h (by simp)
    | some best =>
      rw [heq] at h
      have hb : best = b := by simpa using h
      subst hb
      have hmem := earliest_mem heq
      have hflt := List.mem_filter.mp hmem
      refine ⟨hflt.1, hflt.2, ?_⟩
      intro c hc hcallowed
      exact earliest_le heq c (List.mem_filter.mpr ⟨hc, hcallowed⟩)
  · intro s moment
    rw [hunfold]
    cases heq : Schedule.earliest ((s.candidates moment).filter (fun c => s.is_allowed_at c)) with
    | none =>
      simp only [heq]
      have hnil : (s.candidates moment).filter (fun c => s.is_allowed_at c) = [] := by
        cases hl : (s.candidates moment).filter (fun c => s.is_allowed_at c) with
        | nil => rfl
        | cons x xs => rw [hl] at heq; simp [Schedule.earliest] at heq
      simp only [List.filter_eq_nil_iff] at hnil
      constructor
      · intro _ c hc
        by_contra hne
        exact hnil c hc (by simpa using hne)
      · intro _; trivial
    | some best =>
      simp only [heq]
      constructor
      · intro h; exact absurd h (by simp)
      · intro hall
        have hmem := earliest_mem heq
        have hflt := List.mem_filter.mp hmem
        rw [hall best hflt.1] at hflt
        exact absurd hflt.2 (by simp)
  · intro moment tz
    apply next_error_of_never_allowed
    intro c; simp [Schedule.is_allowed_at]
  · intro w moment tz
    apply next_error_of_never_allowed
    intro c
    simp only [Schedule.is_allowed_at, List.any_cons, List.any_nil, Bool.or_false]
    exact Bool.and_not_self _

/-- Witness for C1 at a single always-allowed-Sunday schedule whose next
allowed moment after Sunday midnight is that moment itself. -/
theorem next_moment_allowed_after_spec_witness :
    (mkMoment 0 0 0) ∈ sundaySchedule.candidates (mkMoment 0 0 0) ∧
    sundaySchedule.is_allowed_at (mkMoment 0 0 0) = true ∧
    ∀ c ∈ sundaySchedule.candidates (mkMoment 0 0 0),
      sundaySchedule.is_allowed_at c = true → (mkMoment 0 0 0).instant ≤ c.instant :=
  next_moment_allowed_after_spec.1 sundaySchedule (mkMoment 0 0 0) (mkMoment 0 0 0) (by rfl)

/-- C5: the three-line example DSL text parses to the Schedule with
Sunday–Friday allowed 00:00–23:59, Saturday allowed 00:00–14:00 (the bare
`TIME` interval defaulting its end to 23:59 and `-TIME` defaulting its
start to 00:00), and Monday–Friday forbidden 08:00–20:00. -/
theorem parse_example_schedule_spec :
    parse_string "sunday allow 0000\nmonday-friday allow 0000 forbid 0800-2000\nsaturday allow -1400"
      = Except.ok
        { allowed := [⟨0, ⟨⟨0, 0⟩, ⟨23, 59⟩⟩⟩, ⟨1, ⟨⟨0, 0⟩, ⟨23, 59⟩⟩⟩, ⟨2, ⟨⟨0, 0⟩, ⟨23, 59⟩⟩⟩,
                      ⟨3, ⟨⟨0, 0⟩, ⟨23, 59⟩⟩⟩, ⟨4, ⟨⟨0, 0⟩, ⟨23, 59⟩⟩⟩, ⟨5, ⟨⟨0, 0⟩, ⟨23, 59⟩⟩⟩,
                      ⟨6, ⟨⟨0, 0⟩, ⟨14, 0⟩⟩⟩],
          forbidden := [⟨1, ⟨⟨8, 0⟩, ⟨20, 0⟩⟩⟩, ⟨2, ⟨⟨8, 0⟩, ⟨20, 0⟩⟩⟩, ⟨3, ⟨⟨8, 0⟩, ⟨20, 0⟩⟩⟩,
                        ⟨4, ⟨⟨8, 0⟩, ⟨20, 0⟩⟩⟩, ⟨5, ⟨⟨8, 0⟩, ⟨20, 0⟩⟩⟩],
          tz := 0 } := by rfl

/-- C6: a day range `X-Y` over any two weekday tokens expands forward
from X's day number by successors modulo 7 until Y's day number,
inclusive of both endpoints and wrapping past day 6; in particular
"wed-tue" yields [3, 4, 5, 6, 0, 1, 2]. -/
theorem day_range_wraparound_spec :
    (∀ x ∈ Lexer.DAYS_OF_WEEK, ∀ y ∈ Lexer.DAYS_OF_WEEK,
      parse_days_of_string (x ++ "-" ++ y) =
        some (dayRangeSpec ((Parser.dow_int_map x).getD 0) ((Parser.dow_int_map y).getD 0))) ∧
    parse_days_of_string "wed-tue" = some [3, 4, 5, 6, 0, 1, 2] := by
  constructor
  · decide
  · decide

/-- Witness for C6 at the weekday tokens "wed" and "tue". -/
theorem day_range_wraparound_spec_witness :
    parse_days_of_string ("wed" ++ "-" ++ "tue") =
      some (dayRangeSpec ((Parser.dow_int_map "wed").getD 0)
        ((Parser.dow_int_map "tue").getD 0)) :=
  day_range_wraparound_spec.1 "wed" (by decide) "tue" (by decide)

/-- Helper: `lookup` succeeds exactly on the association list's keys. -/
theorem lookup_isSome_iff_mem_keys (l : List (Char × Trie)) (c : Char) :
    (l.lookup c).isSome = true ↔ c ∈ l.map (fun p => p.1) := by
  induction l with
  | nil => simp [List.lookup]
  | cons p rest ih =>
    obtain ⟨k, v⟩ := p
    simp only [List.lookup, List.map_cons, List.mem_cons]
    by_cases h : c = k
    · simp [h]
    · simp only [beq_false_of_ne h, ih]
      simp [h]

/-- Helper: `maxMatchChars` returns a traversable prefix no shorter than
any traversable prefix. -/
theorem maxMatchChars_spec (cs : List Char) :
    ∀ t : Trie, Trie.maxMatchChars t cs <+: cs ∧
      (Trie.walk t (Trie.maxMatchChars t cs)).isSome = true ∧
      ∀ p, p <+: cs → (Trie.walk t p).isSome = true →
        p.length ≤ (Trie.maxMatchChars t cs).length := by
  induction cs with
  | nil =>
    intro t
    obtain ⟨b, children⟩ := t
    refine ⟨List.nil_prefix, by simp [Trie.walk, Trie.maxMatchChars], ?_⟩
    intro p hp _
    simp only [List.prefix_nil] at hp
    simp [hp, Trie.maxMatchChars]
  | cons c cs ih =>
    intro t
    obtain ⟨b, children⟩ := t
    cases hl : children.lookup c with
    | none =>
      have hmm : Trie.maxMatchChars (Trie.node b children) (c :: cs) = [] := by
        simp [Trie.maxMatchChars, hl]
      refine ⟨hmm ▸ List.nil_prefix, by simp [hmm, Trie.walk], ?_⟩
      intro p hp hw
      cases p with
      | nil => simp [hmm]
      | cons c' p' =>
        obtain ⟨rfl, -⟩ := List.cons_prefix_cons.mp hp
        simp [Trie.walk, hl] at hw
    | some t' =>
      have hmm : Trie.maxMatchChars (Trie.node b children) (c :: cs)
          = c :: Trie.maxMatchChars t' cs := by
        simp [Trie.maxMatchChars, hl]
      obtain ⟨ihpre, ihwalk, ihmax⟩ := ih t'
      refine ⟨?_, ?_, ?_⟩
      · rw [hmm]; exact List.cons_prefix_cons.mpr ⟨rfl, ihpre⟩
      · rw [hmm]
        simpa [Trie.walk, hl] using ihwalk
      · intro p hp hw
        cases p with
        | nil => simp
        | cons c' p' =>
          obtain ⟨rfl, hp'⟩ := List.cons_prefix_cons.mp hp
          simp only [Trie.walk, hl] at hw
          rw [hmm]
          simpa using ihmax p' hp' hw

/-- C8: `chars_after` returns the sorted child characters of the node the
(lowercased) string reaches and the empty list when the string has no
path; `max_match_for` returns the longest prefix of the string that is a
valid path.  Concretely, over {prefix, prerelease, preordain} the
characters after "pre" are f, o, r in sorted order, and over
{prefix, preface} the maximal match of "prefrontal" is "pref". -/
theorem trie_query_spec :
    (∀ (t : Trie) (s : String),
      (t.chars_after s).Sorted (· ≤ ·) ∧
      (Trie.walk t (Trie.lowerChars s) = none → t.chars_after s = []) ∧
      (∀ n, Trie.walk t (Trie.lowerChars s) = some n →
        ∀ c, c ∈ t.chars_after s ↔ (n.find? c).isSome = true)) ∧
    (∀ (t : Trie) (s : String),
      (t.max_match_for s).data <+: Trie.lowerChars s ∧
      (Trie.walk t (t.max_match_for s).data).isSome = true ∧
      ∀ p, p <+: Trie.lowerChars s → (Trie.walk t p).isSome = true →
        p.length ≤ (t.max_match_for s).data.length) ∧
    Trie.chars_after (Trie.from_strings ["prefix", "prerelease", "preordain"]) "pre"
      = ['f', 'o', 'r'] ∧
    Trie.max_match_for (Trie.from_strings ["prefix", "preface"]) "prefrontal" = "pref" := by
  refine ⟨?_, ?_, by decide, by decide⟩
  · intro t s
    cases hw : Trie.walk t (Trie.lowerChars s) with
    | none =>
      refine ⟨?_, fun _ => ?_, ?_⟩
      · simp [Trie.chars_after, hw]
      · simp [Trie.chars_after, hw]
      · intro n hn; exact absurd hn (by simp)
    | some n =>
      refine ⟨?_, fun h => ?_, ?_⟩
      · simp only [Trie.chars_after, hw]
        exact List.sorted_insertionSort _ _
      · exact absurd h (by simp)
      · intro n' hn' c
        obtain rfl : n = n' := by simpa using hn'
        simp only [Trie.chars_after, hw]
        rw [(List.perm_insertionSort _ _).mem_iff]
        obtain ⟨bn, chn⟩ := n
        exact (lookup_isSome_iff_mem_keys chn c).symm
  · intro t s
    exact maxMatchChars_spec (Trie.lowerChars s) t

/-- Witness for C8: a pathless string yields no characters, and a short
traversable prefix is no longer than the maximal match. -/
theorem trie_query_spec_witness :
    Trie.chars_after (Trie.from_strings ["prefix", "preface"]) "zz" = [] ∧
    ['p'].length ≤
      ((Trie.from_strings ["prefix", "preface"]).max_match_for "pre").data.length :=
  ⟨(trie_query_spec.1 (Trie.from_strings ["prefix", "preface"]) "zz").2.1 (by rfl),
   (trie_query_spec.2.1 (Trie.from_strings ["prefix", "preface"]) "pre").2.2
     ['p'] (by decide) (by decide)⟩

/-- Helper: skipping whitespace stops immediately on a non-whitespace,
non-newline character. -/
theorem skip_whitespace_stay (fuel : Nat) (st : LexState) (c : Char) (hc : st.char = some c)
    (h1 : c ∉ Lexer.whitespaceChars) (h2 : c ≠ '\n') :
    Lexer.skip_whitespace fuel st = st := by
  cases fuel with
  | zero => rfl
  | succ n => simp [Lexer.skip_whitespace, hc, h1, h2]

/-- Helper: the lexer's first advance inside a freshly started four-digit
line moves to its second character. -/
theorem tt_next_char1 (c1 c2 c3 c4 : Char) (rest : List Char) (lines : List (List Char))
    (lineno : Int) :
    Lexer.next_char ⟨lines, c1 :: c2 :: c3 :: c4 :: rest, 0, lineno, some c1⟩
      = ⟨lines, c1 :: c2 :: c3 :: c4 :: rest, 1, lineno, some c2⟩ := by
  simp only [Lexer.next_char]
  rw [if_neg (by simp), if_neg (by simp; omega)]
  rfl

theorem tt_next_char2 (c1 c2 c3 c4 : Char) (rest : List Char) (lines : List (List Char))
    (lineno : Int) :
    Lexer.next_char ⟨lines, c1 :: c2 :: c3 :: c4 :: rest, 1, lineno, some c2⟩
      = ⟨lines, c1 :: c2 :: c3 :: c4 :: rest, 2, lineno, some c3⟩ := by
  simp only [Lexer.next_char]
  rw [if_neg (by simp), if_neg (by simp; omega)]
  rfl

theorem tt_next_char3 (c1 c2 c3 c4 : Char) (rest : List Char) (lines : List (List Char))
    (lineno : Int) :
    Lexer.next_char ⟨lines, c1 :: c2 :: c3 :: c4 :: rest, 2, lineno, some c3⟩
      = ⟨lines, c1 :: c2 :: c3 :: c4 :: rest, 3, lineno, some c4⟩ := by
  simp only [Lexer.next_char]
  rw [if_neg (by simp), if_neg (by simp; omega)]
  rfl

theorem tt_hour_ok (c1 c2 c3 c4 : Char) (rest : List Char) (lines : List (List Char))
    (lineno : Int) (h : Lexer.is_hour_end (some c2) c1 = true) :
    Lexer.hour_part c1 ⟨lines, c1 :: c2 :: c3 :: c4 :: rest, 0, lineno, some c1⟩
      = Except.ok ([c1, c2], ⟨lines, c1 :: c2 :: c3 :: c4 :: rest, 2, lineno, some c3⟩) := by
  simp only [Lexer.hour_part, tt_next_char1, tt_next_char2, h, if_true]

theorem tt_hour_err (c1 c2 c3 c4 : Char) (rest : List Char) (lines : List (List Char))
    (lineno : Int) (h : Lexer.is_hour_end (some c2) c1 = false) :
    Lexer.hour_part c1 ⟨lines, c1 :: c2 :: c3 :: c4 :: rest, 0, lineno, some c1⟩
      = Except.error { lineno := lineno, column := 1,
                        expected := some (if c1 = '2' then Lexer.HOUR_ENDS_2X
                                          else Lexer.HOUR_ENDS) } := by
  simp only [Lexer.hour_part, tt_next_char1, h, if_false]
  rfl

theorem tt_min_ok (c1 c2 c3 c4 : Char) (rest : List Char) (lines : List (List Char))
    (lineno : Int) (h3 : Lexer.is_minute_start (some c3) = true)
    (h4 : Lexer.is_minute_end (some c4) = true) :
    Lexer.minute_part ⟨lines, c1 :: c2 :: c3 :: c4 :: rest, 2, lineno, some c3⟩
      = Except.ok ([c3, c4],
          Lexer.next_char ⟨lines, c1 :: c2 :: c3 :: c4 :: rest, 3, lineno, some c4⟩) := by
  simp only [Lexer.minute_part, tt_next_char3, h3, h4, if_true]

theorem tt_min_err1 (c1 c2 c3 c4 : Char) (rest : List Char) (lines : List (List Char))
    (lineno : Int) (h3 : Lexer.is_minute_start (some c3) = false) :
    Lexer.minute_part ⟨lines, c1 :: c2 :: c3 :: c4 :: rest, 2, lineno, some c3⟩
      = Except.error { lineno := lineno, column := 2, expected := some Lexer.MINUTE_STARTS } := by
  simp only [Lexer.minute_part, h3, if_false]
  rfl

theorem tt_min_err2 (c1 c2 c3 c4 : Char) (rest : List Char) (lines : List (List Char))
    (lineno : Int) (h3 : Lexer.is_minute_start (some c3) = true)
    (h4 : Lexer.is_minute_end (some c4) = false) :
    Lexer.minute_part ⟨lines, c1 :: c2 :: c3 :: c4 :: rest, 2, lineno, some c3⟩
      = Except.error { lineno := lineno, column := 3, expected := some Lexer.MINUTE_ENDS } := by
  simp only [Lexer.minute_part, tt_next_char3, h3, h4, if_true, if_false]
  rfl

/-- Helper: `Except.bind` on a success. -/
theorem except_bind_ok {ε α β : Type} (a : α) (f : α → Except ε β) :
    (Except.ok a : Except ε α) >>= f = f a := rfl

/-- Helper: `Except.bind` on a failure. -/
theorem except_bind_err {ε α β : Type} (e : ε) (f : α → Except ε β) :
    (Except.error e : Except ε α) >>= f = Except.error e := rfl

/-- C7: with the lexer on a digit 0/1/2, `next_token` yields a TIME token
exactly when the second digit lies in 0-3 after a leading 2 and in 0-9
otherwise, the third digit lies in 0-5, and the fourth in 0-9; the first
violating character fails immediately with the acceptable-digit set in the
diagnostic, so lexing "0060" and "2400" both fail. -/
theorem time_token_spec :
    (∀ (c1 c2 c3 c4 : Char) (rest : List Char) (lines : List (List Char)) (lineno : Int),
      c1 ∈ (['0', '1', '2'] : List Char) →
      ((if c1 = '2' then c2 ∈ (['0', '1', '2', '3'] : List Char)
        else c2 ∈ (['0', '1', '2', '3', '4', '5', '6', '7', '8', '9'] : List Char)) →
        c3 ∈ (['0', '1', '2', '3', '4', '5'] : List Char) →
        c4 ∈ (['0', '1', '2', '3', '4', '5', '6', '7', '8', '9'] : List Char) →
        ∃ st', Lexer.next_token ⟨lines, c1 :: c2 :: c3 :: c4 :: rest, 0, lineno, some c1⟩ =
          Except.ok ({ type := TokenType.TIME, lexeme := String.mk [c1, c2, c3, c4],
                       position := { column := 0, lineno := lineno } }, st')) ∧
      (¬(if c1 = '2' then c2 ∈ (['0', '1', '2', '3'] : List Char)
         else c2 ∈ (['0', '1', '2', '3', '4', '5', '6', '7', '8', '9'] : List Char)) →
        Lexer.next_token ⟨lines, c1 :: c2 :: c3 :: c4 :: rest, 0, lineno, some c1⟩ =
          Except.error { lineno := lineno, column := 1,
                         expected := some (if c1 = '2' then ['0', '1', '2', '3']
                                           else ['0', '1', '2', '3', '4', '5', '6', '7',
                                                 '8', '9']) }) ∧
      ((if c1 = '2' then c2 ∈ (['0', '1', '2', '3'] : List Char)
        else c2 ∈ (['0', '1', '2', '3', '4', '5', '6', '7', '8', '9'] : List Char)) →
        c3 ∉ (['0', '1', '2', '3', '4', '5'] : List Char) →
        Lexer.next_token ⟨lines, c1 :: c2 :: c3 :: c4 :: rest, 0, lineno, some c1⟩ =
          Except.error { lineno := lineno, column := 2,
                         expected := some ['0', '1', '2', '3', '4', '5'] }) ∧
      ((if c1 = '2' then c2 ∈ (['0', '1', '2', '3'] : List Char)
        else c2 ∈ (['0', '1', '2', '3', '4', '5', '6', '7', '8', '9'] : List Char)) →
        c3 ∈ (['0', '1', '2', '3', '4', '5'] : List Char) →
        c4 ∉ (['0', '1', '2', '3', '4', '5', '6', '7', '8', '9'] : List Char) →
        Lexer.next_token ⟨lines, c1 :: c2 :: c3 :: c4 :: rest, 0, lineno, some c1⟩ =
          Except.error { lineno := lineno, column := 3,
                         expected := some ['0', '1', '2', '3', '4', '5', '6', '7', '8', '9'] })) ∧
    Lexer.tokenize (Lexer.from_string "0060") =
      Except.error { lineno := 0, column := 2, expected := some ['0', '1', '2', '3', '4', '5'] } ∧
    Lexer.tokenize (Lexer.from_string "2400") =
      Except.error { lineno := 0, column := 1, expected := some ['0', '1', '2', '3'] } := by
  refine ⟨?_, by rfl, by rfl⟩
  intro c1 c2 c3 c4 rest lines lineno hc1
  have hc1' : c1 = '0' ∨ c1 = '1' ∨ c1 = '2' := by simpa using hc1
  have hws : c1 ∉ Lexer.whitespaceChars := by
    rcases hc1' with rfl | rfl | rfl <;> decide
  have hnl : c1 ≠ '\n' := by
    rcases hc1' with rfl | rfl | rfl <;> decide
  have hida : Lexer.is_ascii_identifier_start c1 = false := by
    rcases hc1' with rfl | rfl | rfl <;> decide
  have hhs : Lexer.is_hour_start c1 = true := by
    rcases hc1' with rfl | rfl | rfl <;> decide
  have hnt : Lexer.next_token ⟨lines, c1 :: c2 :: c3 :: c4 :: rest, 0, lineno, some c1⟩ =
      Lexer.time_token c1 { column := 0, lineno := lineno }
        ⟨lines, c1 :: c2 :: c3 :: c4 :: rest, 0, lineno, some c1⟩ := by
    simp only [Lexer.next_token,
      skip_whitespace_stay _ ⟨lines, c1 :: c2 :: c3 :: c4 :: rest, 0, lineno, some c1⟩ c1
        rfl hws hnl, hida, hhs]
    rfl
  have hhourEq : Lexer.is_hour_end (some c2) c1 =
      (if c1 = '2' then decide (c2 ∈ (['0', '1', '2', '3'] : List Char))
       else decide (c2 ∈ (['0', '1', '2', '3', '4', '5', '6', '7', '8', '9'] : List Char))) := by
    simp [Lexer.is_hour_end, Lexer.HOUR_ENDS_2X, Lexer.HOUR_ENDS]
  refine ⟨?_, ?_, ?_, ?_⟩
  · intro h2 h3 h4
    have hh : Lexer.is_hour_end (some c2) c1 = true := by
      rw [hhourEq]
      split <;> rename_i hc12
      · rw [if_pos hc12] at h2; simpa using h2
      · rw [if_neg hc12] at h2; simpa using h2
    have hm3 : Lexer.is_minute_start (some c3) = true := by
      simp only [Lexer.is_minute_start, Lexer.MINUTE_STARTS]; simpa using h3
    have hm4 : Lexer.is_minute_end (some c4) = true := by
      simp only [Lexer.is_minute_end, Lexer.MINUTE_ENDS]; simpa using h4
    refine ⟨Lexer.next_char ⟨lines, c1 :: c2 :: c3 :: c4 :: rest, 3, lineno, some c4⟩, ?_⟩
    rw [hnt]
    simp only [Lexer.time_token, tt_hour_ok c1 c2 c3 c4 rest lines lineno hh, except_bind_ok,
      tt_min_ok c1 c2 c3 c4 rest lines lineno hm3 hm4]
    rfl
  · intro h2
    have hh : Lexer.is_hour_end (some c2) c1 = false := by
      rw [hhourEq]
      split <;> rename_i hc12
      · rw [if_pos hc12] at h2; simpa using h2
      · rw [if_neg hc12] at h2; simpa using h2
    rw [hnt]
    simp only [Lexer.time_token, tt_hour_err c1 c2 c3 c4 rest lines lineno hh, except_bind_err]
    rfl
  · intro h2 h3
    have hh : Lexer.is_hour_end (some c2) c1 = true := by
      rw [hhourEq]
      split <;> rename_i hc12
      · rw [if_pos hc12] at h2; simpa using h2
      · rw [if_neg hc12] at h2; simpa using h2
    have hm3 : Lexer.is_minute_start (some c3) = false := by
      simp only [Lexer.is_minute_start, Lexer.MINUTE_STARTS]
      simpa using h3
    rw [hnt]
    simp only [Lexer.time_token, tt_hour_ok c1 c2 c3 c4 rest lines lineno hh, except_bind_ok,
      tt_min_err1 c1 c2 c3 c4 rest lines lineno hm3, except_bind_err]
    rfl
  · intro h2 h3 h4
    have hh : Lexer.is_hour_end (some c2) c1 = true := by
      rw [hhourEq]
      split <;> rename_i hc12
      · rw [if_pos hc12] at h2; simpa using h2
      · rw [if_neg hc12] at h2; simpa using h2
    have hm3 : Lexer.is_minute_start (some c3) = true := by
      simp only [Lexer.is_minute_start, Lexer.MINUTE_STARTS]; simpa using h3
    have hm4 : Lexer.is_minute_end (some c4) = false := by
      simp only [Lexer.is_minute_end, Lexer.MINUTE_ENDS]
      simpa using h4
    rw [hnt]
    simp only [Lexer.time_token, tt_hour_ok c1 c2 c3 c4 rest lines lineno hh, except_bind_ok,
      tt_min_err2 c1 c2 c3 c4 rest lines lineno hm3 hm4, except_bind_err]
    rfl

/-- Witness for C7 at the valid time "0930" on its own line. -/
theorem time_token_spec_witness :
    ∃ st', Lexer.next_token ⟨[], ['0', '9', '3', '0'], 0, 0, some '0'⟩ =
      Except.ok ({ type := TokenType.TIME, lexeme := String.mk ['0', '9', '3', '0'],
                   position := { column := 0, lineno := 0 } }, st') :=
  (time_token_spec.1 '0' '9' '3' '0' [] [] 0 (by decide)).1 (by decide) (by decide) (by decide)

/-- C10: `add_agenda_on_days` appends one WeekdayInterval per pair of the
product of the agenda's intervals (outer) with the days (inner) to the list
selected by the directive, leaving the other list and the timezone
untouched and never disturbing existing elements. -/
theorem add_agenda_frame_spec :
    ∀ (s : Schedule) (a : Agenda) (days : List Int),
      (s.add_agenda_on_days a days).tz = s.tz ∧
      (a.directive = Directive.ALLOW →
        (s.add_agenda_on_days a days).allowed =
          s.allowed ++ (a.intervals.product days).map (fun p => WeekdayInterval.mk p.2 p.1) ∧
        (s.add_agenda_on_days a days).forbidden = s.forbidden) ∧
      (a.directive = Directive.FORBID →
        (s.add_agenda_on_days a days).forbidden =
          s.forbidden ++ (a.intervals.product days).map (fun p => WeekdayInterval.mk p.2 p.1) ∧
        (s.add_agenda_on_days a days).allowed = s.allowed) ∧
      ((a.intervals.product days).map (fun p => WeekdayInterval.mk p.2 p.1)).length =
        a.intervals.length * days.length := by
  intro s a days
  have hprod : (a.intervals.product days).map (fun p => WeekdayInterval.mk p.2 p.1) =
      a.intervals.flatMap fun interval =>
        days.map fun day_of_week => WeekdayInterval.mk day_of_week interval := by
    simp only [List.product, List.map_flatMap, List.map_map]
    rfl
  refine ⟨?_, ?_, ?_, ?_⟩
  · cases h : a.directive <;> simp [Schedule.add_agenda_on_days, h]
  · intro h; rw [hprod]; simp [Schedule.add_agenda_on_days, h]
  · intro h; rw [hprod]; simp [Schedule.add_agenda_on_days, h]
  · rw [List.length_map]; exact List.length_product a.intervals days

/-- Helper: `at_time` with an in-range wall-clock time keeps the local
date (and so the day of week), sets the local hour and minute, and keeps
the timezone. -/
theorem at_time_fields (dt : DateTime) (h mi : Int)
    (hh0 : 0 ≤ h) (hh : h ≤ 23) (hm0 : 0 ≤ mi) (hm : mi ≤ 59) :
    (dt.at_time h mi).localDate = dt.localDate ∧
    (dt.at_time h mi).day_of_week = dt.day_of_week ∧
    (dt.at_time h mi).hour = h ∧
    (dt.at_time h mi).minute = mi ∧
    (dt.at_time h mi).tz = dt.tz := by
  simp only [DateTime.at_time, DateTime.localDate, DateTime.localMins, DateTime.localAbs,
    DateTime.day_of_week, DateTime.hour, DateTime.minute]
  refine ⟨by omega, by omega, by omega, by omega, by trivial⟩

/-- Helper: `next` with `keep_time` on a datetime already on the target
day of week moves exactly one week forward. -/
theorem next_match_keep (dt : DateTime) (dow : Int) (h : dt.day_of_week = dow) :
    dt.next dow true = dt.addMinutes (7 * 1440) := by
  simp only [DateTime.day_of_week, DateTime.localDate, DateTime.localAbs] at h
  simp only [DateTime.next, DateTime.addMinutes, DateTime.localDate, DateTime.localMins,
    DateTime.localAbs, if_true]
  rw [if_pos (by omega)]
  simp only [DateTime.mk.injEq]
  exact ⟨by omega, by trivial⟩

/-- Helper: `next` without `keep_time` from a non-matching day of week
jumps 1–6 days forward to the target weekday, at local midnight. -/
theorem next_nomatch (dt : DateTime) (dow : Int) (h0 : 0 ≤ dow) (h7 : dow < 7)
    (h : dt.day_of_week ≠ dow) :
    ∃ k : Int, 1 ≤ k ∧ k ≤ 6 ∧
      dt.next dow false = { instant := (dt.localDate + k) * 1440 - dt.tz, tz := dt.tz } ∧
      (dt.localDate + k) % 7 = dow := by
  simp only [DateTime.day_of_week] at h
  refine ⟨(dow - dt.localDate % 7) % 7, by omega, by omega, ?_, by omega⟩
  simp only [DateTime.next, Bool.false_eq_true, if_false]
  rw [if_neg (by omega)]
  simp only [add_zero]

/-- C4: `next_start_after` uses today's occurrence of the start
time-of-day when the day of week matches and it has not passed, rolls one
week forward when it has passed, and otherwise jumps 1–6 days to the next
date with the target weekday at the start time; `next_end_after` applies
the same advancement targeting one minute past the end time-of-day, with
a strict comparison.  Concretely, day 0 with start 00:00 queried at
day0@01:00 yields day7@00:00, and day 0 with end 01:00 queried at
day0@00:00 yields day0@01:01. -/
theorem next_start_end_after_spec :
    (∀ (w : WeekdayInterval) (m : DateTime),
      0 ≤ w.day_of_week → w.day_of_week < 7 →
      0 ≤ w.interval.start.hour → w.interval.start.hour ≤ 23 →
      0 ≤ w.interval.start.minute → w.interval.start.minute ≤ 59 →
      0 ≤ w.interval.«end».hour → w.interval.«end».hour ≤ 23 →
      0 ≤ w.interval.«end».minute → w.interval.«end».minute ≤ 59 →
      ((m.day_of_week = w.day_of_week →
        ((m.at_time w.interval.start.hour w.interval.start.minute).instant ≥ m.instant →
          w.next_start_after m = m.at_time w.interval.start.hour w.interval.start.minute) ∧
        ((m.at_time w.interval.start.hour w.interval.start.minute).instant < m.instant →
          w.next_start_after m =
            (m.at_time w.interval.start.hour w.interval.start.minute).addMinutes (7 * 1440))) ∧
      (m.day_of_week ≠ w.day_of_week →
        ∃ k : Int, 1 ≤ k ∧ k ≤ 6 ∧
          (w.next_start_after m).localDate = m.localDate + k ∧
          (w.next_start_after m).day_of_week = w.day_of_week ∧
          (w.next_start_after m).hour = w.interval.start.hour ∧
          (w.next_start_after m).minute = w.interval.start.minute ∧
          (w.next_start_after m).tz = m.tz) ∧
      (m.day_of_week = w.day_of_week →
        (((m.at_time w.interval.«end».hour w.interval.«end».minute).addMinutes 1).instant
            > m.instant →
          w.next_end_after m =
            (m.at_time w.interval.«end».hour w.interval.«end».minute).addMinutes 1) ∧
        (((m.at_time w.interval.«end».hour w.interval.«end».minute).addMinutes 1).instant
            ≤ m.instant →
          w.next_end_after m =
            ((m.at_time w.interval.«end».hour w.interval.«end».minute).addMinutes 1).addMinutes
              (7 * 1440))) ∧
      (m.day_of_week ≠ w.day_of_week →
        ∃ k : Int, 1 ≤ k ∧ k ≤ 6 ∧
          (m.localDate + k) % 7 = w.day_of_week ∧
          (w.next_end_after m).tz = m.tz ∧
          (w.next_end_after m).instant =
            (m.localDate + k) * 1440 + w.interval.«end».hour * 60
              + w.interval.«end».minute + 1 - m.tz))) ∧
    sundayAllDay.next_start_after (mkMoment 0 1 0) = mkMoment 7 0 0 ∧
    sundayUntilOne.next_end_after (mkMoment 0 0 0) = mkMoment 0 1 1 := by
  refine ⟨?_, by decide, by decide⟩
  intro w m hd0 hd7 hsh0 hsh hsm0 hsm heh0 heh hem0 hem
  refine ⟨?_, ?_, ?_, ?_⟩
  · intro hdow
    constructor
    · intro hge
      simp only [WeekdayInterval.next_start_after]
      rw [if_pos hdow, if_pos hge]
    · intro hlt
      simp only [WeekdayInterval.next_start_after]
      rw [if_pos hdow, if_neg (by omega)]
      apply next_match_keep
      rw [(at_time_fields m _ _ hsh0 hsh hsm0 hsm).2.1]
      exact hdow
  · intro hne
    simp only [WeekdayInterval.next_start_after]
    rw [if_neg hne]
    obtain ⟨k, hk1, hk6, heq, hmod⟩ := next_nomatch m w.day_of_week hd0 hd7 hne
    rw [heq]
    have hbase : ({ instant := (m.localDate + k) * 1440 - m.tz, tz := m.tz } :
        DateTime).localDate = m.localDate + k := by
      simp only [DateTime.localDate, DateTime.localAbs]; omega
    have hf := at_time_fields { instant := (m.localDate + k) * 1440 - m.tz, tz := m.tz }
      w.interval.start.hour w.interval.start.minute hsh0 hsh hsm0 hsm
    refine ⟨k, hk1, hk6, ?_, ?_, hf.2.2.1, hf.2.2.2.1, hf.2.2.2.2⟩
    · rw [hf.1, hbase]
    · simp only [DateTime.day_of_week, hf.1, hbase, hmod]
  · intro hdow
    constructor
    · intro hgt
      simp only [WeekdayInterval.next_end_after]
      rw [if_pos hdow, if_pos hgt]
    · intro hle
      simp only [WeekdayInterval.next_end_after]
      rw [if_pos hdow, if_neg (by omega)]
      apply next_match_keep
      simp only [DateTime.day_of_week, DateTime.localDate, DateTime.localMins,
        DateTime.localAbs, DateTime.at_time, DateTime.addMinutes] at hdow hle ⊢
      omega
  · intro hne
    simp only [WeekdayInterval.next_end_after]
    rw [if_neg hne]
    obtain ⟨k, hk1, hk6, heq, hmod⟩ := next_nomatch m w.day_of_week hd0 hd7 hne
    rw [heq]
    refine ⟨k, hk1, hk6, hmod, rfl, ?_⟩
    simp only [DateTime.at_time, DateTime.addMinutes, DateTime.localDate, DateTime.localAbs]
    omega

/-- Witness for C4: over the all-Sunday interval, the start occurrence at
Sunday 00:00 has already passed at Sunday 01:00, so the next start rolls
one week forward. -/
theorem next_start_end_after_spec_witness :
    sundayAllDay.next_start_after (mkMoment 0 1 0) =
      ((mkMoment 0 1 0).at_time sundayAllDay.interval.start.hour
        sundayAllDay.interval.start.minute).addMinutes (7 * 1440) :=
  (((next_start_end_after_spec.1 sundayAllDay (mkMoment 0 1 0)
      (by decide) (by decide) (by decide) (by decide) (by decide) (by decide)
      (by decide) (by decide) (by decide) (by decide)).1 (by decide)).2 (by decide))

/-- Witness for C10 at a concrete schedule, agenda and day list. -/
theorem add_agenda_frame_spec_witness :
    (Schedule.add_agenda_on_days { allowed := [exampleWdi] }
        { intervals := [exampleWdi.interval], directive := Directive.ALLOW } [1, 2]).tz =
      (Schedule.mk [exampleWdi] [] 0).tz ∧
    (Schedule.add_agenda_on_days { allowed := [exampleWdi] }
        { intervals := [exampleWdi.interval], directive := Directive.ALLOW } [1, 2]).allowed =
      [exampleWdi] ++ ([exampleWdi.interval].product [(1 : Int), 2]).map
        (fun p => WeekdayInterval.mk p.2 p.1) ∧
    (Schedule.add_agenda_on_days { allowed := [exampleWdi] }
        { intervals := [exampleWdi.interval], directive := Directive.ALLOW } [1, 2]).forbidden =
      [] := by
  have h := add_agenda_frame_spec { allowed := [exampleWdi] }
    { intervals := [exampleWdi.interval], directive := Directive.ALLOW } [1, 2]
  exact ⟨h.1, (h.2.1 rfl).1, (h.2.1 rfl).2⟩

end Athame

